import Mathlib

/-!
Shallow embedding of the cycle scheduler, error-threshold state machine and
recovery/escalation subsystem of the agent repository
(`src/agents/agent_4/cycles/base_cycle.py`,
`src/agents/agent_4/cycles/cycle_3_healthcheck.py`,
`src/agents/agent_4/agent.py`), together with theorems settling the spec
claims about them.

Conventions of the embedding:
* Timestamps (`datetime.now()`) are `Nat` values supplied by the driver.
* The `execute()` behaviour of a cycle is supplied by the environment as a script
  of per-invocation outcomes (`ExecResult`): either it returns normally or it
  raises with a message.
* The module-level state of the third-party `schedule` library is modelled as a
  registry of jobs (`SchedState`).  `schedule.every(n).seconds.do(f)` appends
  a fresh `Job` whose `runner` field identifies the bound method `f` passed
  to it; `schedule.cancel_job(x)` removes the first registry element equal to
  `x` (`list.remove`, `ValueError` caught).  `Job` does not override `__eq__`
  so equality is object identity: a `Job` list element is equal to the
  argument only when the argument is that `Job` object itself, never when the
  argument is a bound method.  `CancelArg` distinguishes the two shapes.
-/

/-- Outcome of one `execute()` invocation, supplied by the environment:
either the behaviour returned normally or it raised an exception whose
`str(e)` is the given message. -/
inductive ExecResult where
  | ok : ExecResult
  | err (msg : String) : ExecResult
deriving DecidableEq, Repr

/-- A job in the registry of the `schedule` library, created by
`schedule.every(interval).seconds.do(runner)`.  `id` is the identity of the
`Job` object; `runner` identifies the bound `_run` method the job invokes
(cycles are numbered by the driver). -/
structure Job where
  id : Nat
  interval : Nat
  runner : Nat
deriving DecidableEq, Repr

/-- The argument passed to `schedule.cancel_job`: either an actual `Job`
object (referred to by its identity) or a bound method (as in
`schedule.cancel_job(self._run)` in `BaseCycle.stop`). -/
inductive CancelArg where
  | jobRef (id : Nat) : CancelArg
  | funcRef (runner : Nat) : CancelArg
deriving DecidableEq, Repr

/-- Module-level state of the `schedule` library: the list of registered
jobs, in registration order, plus a counter supplying fresh `Job`
identities. -/
structure SchedState where
  jobs : List Job
  nextJobId : Nat
deriving DecidableEq, Repr

namespace SchedState

/-- `schedule.every(interval).seconds.do(f)`: appends a fresh job invoking
runner `f` and returns the updated registry (the created `Job` has identity
`s.nextJobId`). -/
def enqueueJob (s : SchedState) (interval runner : Nat) : SchedState :=
  { jobs := s.jobs ++ [{ id := s.nextJobId, interval := interval, runner := runner }]
    nextJobId := s.nextJobId + 1 }

/-- Removes the first job equal to `arg` from a job list (`list.remove`).
A `Job` is equal to the argument only when the argument is a `jobRef` with
the identity of that job; a `funcRef` (a bound method) is never equal to a `Job`
object, so removal finds nothing. -/
def removeFirst (arg : CancelArg) : List Job → List Job
  | [] => []
  | j :: rest =>
    match arg with
    | CancelArg.jobRef i => if j.id = i then rest else j :: removeFirst arg rest
    | CancelArg.funcRef _ => j :: removeFirst arg rest

/-- `schedule.cancel_job(arg)`: `jobs.remove(arg)` with the `ValueError`
raised on a missing element caught and logged. -/
def cancel_job (s : SchedState) (arg : CancelArg) : SchedState :=
  { s with jobs := removeFirst arg s.jobs }

end SchedState

/-- Mutable runtime state of `BaseCycle`
(`src/agents/agent_4/cycles/base_cycle.py`, `__init__`). -/
structure BaseCycle where
  name : String
  interval : Nat
  is_running : Bool := false
  last_run : Option Nat := none
  error_count : Nat := 0
  max_errors : Nat := 3
deriving DecidableEq, Repr

namespace BaseCycle

/-- `BaseCycle.start` (base_cycle.py lines 38-42): sets `is_running = True`
and registers a periodic job for the bound `_run` method of this cycle
(`schedule.every(self.interval).seconds.do(self._run)`), unconditionally. -/
def start (c : BaseCycle) (s : SchedState) (rid : Nat) : BaseCycle × SchedState :=
  ({ c with is_running := true }, s.enqueueJob c.interval rid)

/-- `BaseCycle.stop` (base_cycle.py lines 59-63): sets `is_running = False`
and calls `schedule.cancel_job(self._run)` — passing the bound method
`self._run`, not a `Job` object, so the cancel argument is a `funcRef`. -/
def stop (c : BaseCycle) (s : SchedState) (rid : Nat) : BaseCycle × SchedState :=
  ({ c with is_running := false }, s.cancel_job (CancelArg.funcRef rid))

/-- Result of one `BaseCycle._run()` invocation: updated cycle state and
registry, whether `self.execute()` was invoked, and the exception (if any)
propagating out of `_run` to the caller. -/
structure RunOutcome where
  cycle : BaseCycle
  sched : SchedState
  executed : Bool
  raised : Option String
deriving DecidableEq, Repr

/-- `BaseCycle._run` (base_cycle.py lines 44-57).  The body is one
`try/except Exception` block and there is no check of `is_running`, so
`self.execute()` is invoked on every call and no exception escapes.
On success `last_run = datetime.now()` and `error_count = 0`; on failure
`error_count += 1` and, if `error_count >= max_errors`, `self.stop()` is
called. -/
def run (c : BaseCycle) (s : SchedState) (rid : Nat) (res : ExecResult) (now : Nat) :
    RunOutcome :=
  match res with
  | ExecResult.ok =>
    { cycle := { c with last_run := some now, error_count := 0 }
      sched := s, executed := true, raised := none }
  | ExecResult.err _ =>
    let c1 : BaseCycle := { c with error_count := c.error_count + 1 }
    if c1.max_errors ≤ c1.error_count then
      let p := c1.stop s rid
      { cycle := p.1, sched := p.2, executed := true, raised := none }
    else
      { cycle := c1, sched := s, executed := true, raised := none }

end BaseCycle

/-- State of a driver that replays the scheduler against a single cycle
(runner id 0): the cycle, the `schedule` registry, how many times
`execute()` has been invoked so far, and the current time. -/
structure TraceState where
  cycle : BaseCycle
  sched : SchedState
  execCount : Nat
  time : Nat
deriving DecidableEq, Repr

/-- Fires the given jobs in order (the body of `schedule.run_pending()`),
invoking `BaseCycle._run` for every job bound to runner 0.  The per-call
outcome of `execute()` is `script k` on its `k`-th invocation.  Returns the
final state and the first exception propagating out of a job, if any (the
iteration stops there, as `run_pending` would). -/
def fireJobs (script : Nat → ExecResult) : List Job → TraceState → TraceState × Option String
  | [], t => (t, none)
  | j :: rest, t =>
    if j.runner = 0 then
      let out := t.cycle.run t.sched 0 (script t.execCount) t.time
      let t1 : TraceState :=
        { cycle := out.cycle, sched := out.sched, execCount := t.execCount + 1, time := t.time }
      match out.raised with
      | some e => (t1, some e)
      | none => fireJobs script rest t1
    else fireJobs script rest t

/-- One moment at which every registered job is due: `schedule.run_pending()`
over a snapshot of the registry, then the clock advances. -/
def tick (script : Nat → ExecResult) (t : TraceState) : TraceState :=
  let p := fireJobs script t.sched.jobs t
  { p.1 with time := p.1.time + 1 }

/-- Replays `n` due moments of the scheduler. -/
def ticks (script : Nat → ExecResult) (t : TraceState) : Nat → TraceState
  | 0 => t
  | Nat.succ n => ticks script (tick script t) n

/-- A message on the shared `message_queue` of the orchestrator.  Messages
are Python dicts read back with `message.get(key)` (missing keys give
`None`), hence the `Option` fields. -/
structure Message where
  type : Option String := none
  cycle : Option String := none
  error : Option String := none
  timestamp : Nat := 0
deriving DecidableEq, Repr

/-- The error message a cycle worker enqueues when an exception escapes its
loop (`Agent4._run_cycle`, agent.py lines 216-223). -/
def mkErrorMessage (cycleName e : String) (now : Nat) : Message :=
  { type := some "error", cycle := some cycleName, error := some e, timestamp := now }

/-- State of one cycle worker thread together with the shared queue. -/
structure WorkerState where
  tr : TraceState
  queue : List Message
deriving DecidableEq, Repr

/-- One iteration of the worker loop of `Agent4._run_cycle` (agent.py lines
207-223): `schedule.run_pending()` runs inside the `try` block of the
worker; if an exception propagates out of a fired job, the except clause
enqueues an error `Message` built from `str(e)` and the cycle name and the
loop exits; otherwise the worker sleeps and the clock advances. -/
def workerIter (script : Nat → ExecResult) (w : WorkerState) : WorkerState :=
  let p := fireJobs script w.tr.sched.jobs w.tr
  match p.2 with
  | some e =>
    { tr := p.1, queue := w.queue ++ [mkErrorMessage p.1.cycle.name e p.1.time] }
  | none =>
    { tr := { p.1 with time := p.1.time + 1 }, queue := w.queue }

/-- Which handler of the orchestrator a message is dispatched to by
`Agent4._handle_message`, or dropped (logged) for an unrecognized kind. -/
inductive Dispatch where
  | errorHandler : Dispatch
  | metricHandler : Dispatch
  | alertHandler : Dispatch
  | dropped : Dispatch
deriving DecidableEq, Repr

/-- `Agent4._handle_message` (agent.py lines 250-266): an if/elif chain on
`message.get(type-key)` routing to `_handle_error_message`,
`_handle_metric_message`, `_handle_alert_message`, with a logged warning
(no exception) for anything else. -/
def handle_message (m : Message) : Dispatch :=
  if m.type = some "error" then Dispatch.errorHandler
  else if m.type = some "metric" then Dispatch.metricHandler
  else if m.type = some "alert" then Dispatch.alertHandler
  else Dispatch.dropped

/-- The consumer loop of `Agent4._start_message_processor` (agent.py lines
229-244): takes one message at a time off the queue, dispatches it, marks
it done and moves to the next; a failure while handling one message is
caught and logged and the loop continues. -/
def consumeAll (ms : List Message) : List Dispatch :=
  ms.map handle_message

/-- State of the orchestrator (`Agent4`, agent.py): the agent-wide running
flag, the registered cycles (the dict values, in insertion order; runner
ids are list positions), the shared message queue and the start time. -/
structure Agent4 where
  is_running : Bool := false
  cycles : List BaseCycle := []
  message_queue : List Message := []
  start_time : Option Nat := none
deriving DecidableEq, Repr

/-- The per-cycle loop of `Agent4.stop` (agent.py lines 85-90): calls
`cycle.stop()` on every registered cycle inside a `try/except` that logs
and continues.  `BaseCycle.stop` itself returns normally (its only fallible
step, `schedule.cancel_job`, catches the `ValueError`), so every iteration
completes. -/
def stopCycles : List BaseCycle → SchedState → Nat → List BaseCycle × SchedState
  | [], s, _ => ([], s)
  | c :: rest, s, rid =>
    let p := c.stop s rid
    let q := stopCycles rest p.2 (rid + 1)
    (p.1 :: q.1, q.2)

/-- The drain loop of `Agent4.stop` (agent.py lines 93-97):
`while not empty: get_nowait()`, discarding every queued message. -/
def drainQueue : List Message → List Message
  | [] => []
  | _ :: rest => drainQueue rest

/-- `Agent4.stop` (agent.py lines 79-99): clears the agent-wide running
flag, calls `stop()` on every cycle (failures tolerated and logged), then
drains the message queue. -/
def Agent4.stop (a : Agent4) (s : SchedState) : Agent4 × SchedState :=
  let a1 : Agent4 := { a with is_running := false }
  let p := stopCycles a1.cycles s 0
  ({ a1 with cycles := p.1, message_queue := drainQueue a1.message_queue }, p.2)

/-- First exception raised while spawning the worker threads for cycles
`i, i+1, ...` (`Thread(...)`/`thread.start()` in the loop of `Agent4.start`,
agent.py lines 59-67); the environment says via `spawn` whether spawning
worker `i` raises. -/
def firstSpawnFailure (spawn : Nat → Option String) : Nat → Nat → Option String
  | _, 0 => none
  | i, Nat.succ k =>
    match spawn i with
    | some e => some e
    | none => firstSpawnFailure spawn (i + 1) k

/-- The first exception raised inside the `try` block of `Agent4.start`:
either while spawning one of the `n` cycle workers, or (after all workers
spawned) while spawning the message-consumer thread of
`_start_message_processor`. -/
def startupFailure (spawn : Nat → Option String) (consumerSpawn : Option String)
    (n : Nat) : Option String :=
  match firstSpawnFailure spawn 0 n with
  | some e => some e
  | none => consumerSpawn

/-- `Agent4.start` (agent.py lines 51-77): sets `is_running = True` and the
start time, spawns one worker thread per cycle and then the message
consumer, all inside a `try` block; on any exception it logs, calls
`self.stop()` and re-raises (`Except.error`).  Note the threads call
`cycle.start()` themselves, so `Agent4.start` touches no cycle state
directly. -/
def Agent4.start (a : Agent4) (s : SchedState) (now : Nat)
    (spawn : Nat → Option String) (consumerSpawn : Option String) :
    (Agent4 × SchedState) × Except String Unit :=
  let a1 : Agent4 := { a with is_running := true, start_time := some now }
  match startupFailure spawn consumerSpawn a1.cycles.length with
  | some e => (Agent4.stop a1 s, Except.error e)
  | none => ((a1, s), Except.ok ())

/-- One record produced by the health sweep of `HealthCheckCycle` for a
named subsystem: `{healthy, message, timestamp}`. -/
structure HealthRecord where
  healthy : Bool
  message : String
  timestamp : Nat
deriving DecidableEq, Repr

/-- The recovery ledger: the `recovery_attempts` dict of `HealthCheckCycle`
as an association list in insertion order (dict keys are unique; lookups
use `dict.get(name, 0)`). -/
def ledgerGet : List (String × Nat) → String → Nat
  | [], _ => 0
  | p :: rest, k => if p.1 = k then p.2 else ledgerGet rest k

/-- Dict assignment `d[name] = v`: replaces the binding in place when the
key is present, else appends it. -/
def ledgerSet : List (String × Nat) → String → Nat → List (String × Nat)
  | [], k, v => [(k, v)]
  | p :: rest, k, v => if p.1 = k then (k, v) :: rest else p :: ledgerSet rest k v

/-- Recovery state of `HealthCheckCycle`
(cycle_3_healthcheck.py, `__init__`): the attempt ledger and the cap. -/
structure HealthCheckCycle where
  recovery_attempts : List (String × Nat) := []
  max_recovery_attempts : Nat := 3
deriving DecidableEq, Repr

/-- `HealthCheckCycle._should_attempt_recovery` (cycle_3_healthcheck.py
lines 189-200): `recovery_attempts.get(name, 0) < max_recovery_attempts`. -/
def should_attempt_recovery (h : HealthCheckCycle) (n : String) : Bool :=
  decide (ledgerGet h.recovery_attempts n < h.max_recovery_attempts)

/-- Outcome of one recovery strategy call as seen at the call site inside
`_attempt_recovery`: it returned `recovered` (a bool) or it raised. -/
inductive StratResult where
  | ok (recovered : Bool) : StratResult
  | exn (msg : String) : StratResult
deriving DecidableEq, Repr

/-- Environment supplying the outcome of each concrete recovery strategy
(`_recover_process`, `_recover_database`, `_recover_api_integration`) —
their results depend on probes of the outside world. -/
structure RecoveryEnv where
  recover_process : String → StratResult
  recover_database : StratResult
  recover_api : StratResult

/-- Python substring test `sub in s` (for nonempty `sub`). -/
def strContains (s sub : String) : Bool :=
  decide ((s.splitOn sub).length > 1)

/-- The strategy dispatch inside `_attempt_recovery` (cycle_3_healthcheck.py
lines 218-224): by subsystem category; when no branch matches, `recovered`
keeps its initial value `False` and nothing raises. -/
def recoveryStrategy (env : RecoveryEnv) (n : String) : StratResult :=
  if strContains n "process" then env.recover_process n
  else if n = "main_db" then env.recover_database
  else if n = "telegram_bot" then env.recover_api
  else StratResult.ok false

/-- `HealthCheckCycle._attempt_recovery` (cycle_3_healthcheck.py lines
202-233): increments the ledger entry first, then applies the strategy
inside a `try`; on `recovered = True` resets the entry to 0; on
`recovered = False` or on an exception (caught, logged) the incremented
count stays. -/
def attempt_recovery (h : HealthCheckCycle) (n : String) (strat : StratResult) :
    HealthCheckCycle :=
  let h1 : HealthCheckCycle :=
    { h with recovery_attempts :=
        ledgerSet h.recovery_attempts n (ledgerGet h.recovery_attempts n + 1) }
  match strat with
  | StratResult.ok true =>
    { h1 with recovery_attempts := ledgerSet h1.recovery_attempts n 0 }
  | StratResult.ok false => h1
  | StratResult.exn _ => h1

/-- An escalation notice sent by `_escalate_issue` (cycle_3_healthcheck.py
lines 235-260): subsystem name, failure message, and the attempt count read
from the ledger (which `_escalate_issue` never modifies). -/
structure Escalation where
  system : String
  message : String
  attempts : Nat
deriving DecidableEq, Repr

/-- `HealthCheckCycle._handle_failures` (cycle_3_healthcheck.py lines
73-89): for each swept subsystem in order, skip it when healthy; when
unhealthy, attempt recovery if eligible, else escalate.  Returns the final
recovery state and the escalations in emission order. -/
def handle_failures (env : RecoveryEnv) (h : HealthCheckCycle) :
    List (String × HealthRecord) → HealthCheckCycle × List Escalation
  | [] => (h, [])
  | (sysn, st) :: rest =>
    if st.healthy then handle_failures env h rest
    else if should_attempt_recovery h sysn then
      handle_failures env (attempt_recovery h sysn (recoveryStrategy env sysn)) rest
    else
      let p := handle_failures env h rest
      (p.1,
        { system := sysn, message := st.message
          attempts := ledgerGet h.recovery_attempts sysn } :: p.2)

/-- One health sweep as seen by `_handle_failures`: the strategy
environment in effect and the swept `(name, record)` pairs. -/
structure Sweep where
  env : RecoveryEnv
  status : List (String × HealthRecord)

/-- Replays a sequence of sweeps through `_handle_failures`, threading the
recovery state (the ledger persists across sweeps; nothing else in the
cycle writes it). -/
def runSweeps (h : HealthCheckCycle) : List Sweep → HealthCheckCycle
  | [] => h
  | sw :: rest => runSweeps (handle_failures sw.env h sw.status).1 rest

/-! ## Concrete inputs used by the closed theorems -/

/-- Fresh empty schedule registry. -/
def sched0 : SchedState := { jobs := [], nextJobId := 0 }

/-- The failing cycle of the repository test `test_cycle_max_errors`:
`max_errors = 2` and an `execute()` that always raises. -/
def failingCycle : BaseCycle :=
  { name := "Error Cycle", interval := 1, max_errors := 2 }

/-- Script under which every `execute()` invocation raises. -/
def failScript : Nat → ExecResult := fun _ => ExecResult.err "Test error"

/-- The state of `failingCycle` after `start()` on a fresh registry and
`n` due moments of the scheduler, with every execution failing. -/
def failTrace (n : Nat) : TraceState :=
  ticks failScript
    { cycle := (failingCycle.start sched0 0).1
      sched := (failingCycle.start sched0 0).2
      execCount := 0, time := 0 } n

/-- A cycle fresh from `__init__`: `is_running` is `False`, nothing ran. -/
def stoppedCycle : BaseCycle := { name := "Test", interval := 5 }

/-- A cycle that has accumulated two failures, below the default cap of 3. -/
def cycleTwoErrors : BaseCycle := { name := "w", interval := 1, error_count := 2 }

/-- A started worker for a cycle whose `execute()` always raises. -/
def failingWorker : WorkerState :=
  { tr :=
      { cycle := (BaseCycle.start { name := "Fail Cycle", interval := 1 } sched0 0).1
        sched := (BaseCycle.start { name := "Fail Cycle", interval := 1 } sched0 0).2
        execCount := 0, time := 0 }
    queue := [] }

/-- The result of calling `start()` twice in a row on one cycle. -/
def doubleStarted : BaseCycle × SchedState :=
  BaseCycle.start (BaseCycle.start { name := "Test Cycle", interval := 1 } sched0 0).1
    (BaseCycle.start { name := "Test Cycle", interval := 1 } sched0 0).2 0

/-- An orchestrator with one registered cycle (collaborators absent). -/
def agentOne : Agent4 := { cycles := [{ name := "c", interval := 1 }] }

/-- A strategy environment in which every recovery strategy returns
`False` (nothing recovers, nothing raises). -/
def constEnv : RecoveryEnv :=
  { recover_process := fun _ => StratResult.ok false
    recover_database := StratResult.ok false
    recover_api := StratResult.ok false }

/-- A recovery state fresh from `__init__`: empty ledger, cap 3. -/
def freshHC : HealthCheckCycle := {}

/-- A recovery state whose ledger entry for subsystem `x` is at the cap. -/
def cappedHC : HealthCheckCycle := { recovery_attempts := [("x", 3)] }

/-- A sweep record for an unhealthy subsystem. -/
def downRecord : HealthRecord := { healthy := false, message := "down", timestamp := 0 }

/-! ## Helper lemmas -/

/-- No exception escapes `BaseCycle._run`: its whole body is a
`try/except Exception` block whose handler does not re-raise. -/
theorem BaseCycle.run_raised_none (c : BaseCycle) (s : SchedState) (rid : Nat)
    (res : ExecResult) (now : Nat) : (c.run s rid res now).raised = none := by
  cases res with
  | ok => rfl
  | err m =>
    simp only [BaseCycle.run]
    split <;> rfl

/-- `self.execute()` is invoked on every call of `BaseCycle._run`: the body
has no `is_running` check. -/
theorem BaseCycle.run_executed (c : BaseCycle) (s : SchedState) (rid : Nat)
    (res : ExecResult) (now : Nat) : (c.run s rid res now).executed = true := by
  cases res with
  | ok => rfl
  | err m =>
    simp only [BaseCycle.run]
    split <;> rfl

/-- `schedule.run_pending()` never lets an exception out when the fired
jobs are `_run` methods: each `_run` catches everything itself. -/
theorem fireJobs_raised_none (script : Nat → ExecResult) (jobs : List Job)
    (t : TraceState) : (fireJobs script jobs t).2 = none := by
  induction jobs generalizing t with
  | nil => rfl
  | cons j rest ih =>
    simp only [fireJobs]
    by_cases hj : j.runner = 0
    · simp [hj, BaseCycle.run_raised_none, ih]
    · simp [hj, ih]

/-- A worker iteration leaves the shared queue untouched: the except clause
of `Agent4._run_cycle` that would enqueue an error message is unreachable
for failures inside `execute()`, because `_run` already caught them. -/
theorem workerIter_queue (script : Nat → ExecResult) (w : WorkerState) :
    (workerIter script w).queue = w.queue := by
  simp [workerIter, fireJobs_raised_none]

/-! ## Claims C1 to C5 -/

/-- Claim C1, evaluated on the code at the failing input of the spec
(`max_errors = 2`, every execution failing).  After the second failure the
cycle has stopped itself (`is_running = false`), yet the job is still in the
schedule registry — `schedule.cancel_job(self._run)` is passed the bound
method instead of the `Job` returned by `do()`, so nothing is removed — and
`_run` has no `is_running` guard, so the next due moment invokes
`execute()` a third time: the third injected failure IS observed,
contradicting the claim that no further `execute()` calls ever occur. -/
theorem c1_third_failure_still_executes :
    (failTrace 2).cycle.is_running = false
  ∧ (failTrace 2).cycle.error_count = 2
  ∧ (failTrace 2).sched.jobs ≠ []
  ∧ (failTrace 3).execCount = 3
  ∧ (failTrace 3).cycle.error_count = 3 :=
  ⟨rfl, rfl, by decide, rfl, rfl⟩

/-- Claim C2, evaluated on the code at a failing input: a cycle whose
`running` flag is false.  `BaseCycle._run` has no `is_running` check, so
invoking the trigger on a stopped cycle is not a no-op: `execute()` is
invoked, and `last_run` / `error_count` change. -/
theorem c2_trigger_runs_while_stopped :
    stoppedCycle.is_running = false
  ∧ (stoppedCycle.run sched0 0 ExecResult.ok 7).executed = true
  ∧ (stoppedCycle.run sched0 0 ExecResult.ok 7).cycle.last_run = some 7
  ∧ (stoppedCycle.run sched0 0 (ExecResult.err "boom") 7).cycle.error_count
      = stoppedCycle.error_count + 1 :=
  ⟨rfl, rfl, rfl, rfl⟩

/-- Claim C3 (confirmed): for any prior `error_count` below the cap, one
successful execution of the trigger records `last_run = now` and resets
`error_count` to 0 (base_cycle.py lines 48-50). -/
theorem c3_success_resets_state (c : BaseCycle) (s : SchedState) (rid now : Nat)
    (h : c.error_count < c.max_errors) :
    ((c.run s rid ExecResult.ok now).cycle.last_run = some now)
  ∧ ((c.run s rid ExecResult.ok now).cycle.error_count = 0) :=
  ⟨rfl, rfl⟩

/-- Witness for C3 at a concrete input: two accumulated failures, cap 3. -/
theorem c3_success_resets_state_witness :
    cycleTwoErrors.error_count < cycleTwoErrors.max_errors
  ∧ ((cycleTwoErrors.run sched0 0 ExecResult.ok 5).cycle.last_run = some 5)
  ∧ ((cycleTwoErrors.run sched0 0 ExecResult.ok 5).cycle.error_count = 0) :=
  ⟨by decide, c3_success_resets_state cycleTwoErrors sched0 0 5 (by decide)⟩

/-- Claim C4, counterexample: one worker iteration in which the execution
of the behaviour raises.  The failure is counted (`error_count = 1`), but
the shared queue stays empty: no error `Message` is submitted, because
`_run` catches the exception itself and the enqueueing except clause of
`Agent4._run_cycle` is never reached.  This refutes the claim that every
failing execution submits an error `Message` to the mailbox. -/
theorem c4_failing_execute_enqueues_nothing :
    failingWorker.queue = []
  ∧ (workerIter failScript failingWorker).tr.cycle.error_count = 1
  ∧ (workerIter failScript failingWorker).queue = [] :=
  ⟨rfl, rfl, rfl⟩

/-- Claim C4 as amended (proved): whenever the execution of the behaviour
raises inside the trigger, `error_count` is incremented by exactly 1 and
the exception does not propagate out of the triggering context (it is
caught and logged inside `_run`); no `error` message reaches the shared
mailbox from such a failure — a worker iteration leaves the queue
unchanged. -/
theorem c4_failure_contained (c : BaseCycle) (s : SchedState) (rid : Nat)
    (msg : String) (now : Nat) (script : Nat → ExecResult) (w : WorkerState) :
    ((c.run s rid (ExecResult.err msg) now).cycle.error_count = c.error_count + 1)
  ∧ ((c.run s rid (ExecResult.err msg) now).raised = none)
  ∧ ((workerIter script w).queue = w.queue) := by
  refine ⟨?_, BaseCycle.run_raised_none c s rid (ExecResult.err msg) now,
    workerIter_queue script w⟩
  simp only [BaseCycle.run]
  split <;> simp [BaseCycle.stop]

/-- Claim C5, counterexample: calling `start()` twice on the same cycle
registers two jobs for the same runner in the schedule registry —
`BaseCycle.start` has no already-running check, so the registration IS
duplicated, refuting idempotence. -/
theorem c5_double_start_duplicates_registration :
    doubleStarted.2.jobs.length = 2
  ∧ doubleStarted.2.jobs
      = [{ id := 0, interval := 1, runner := 0 }, { id := 1, interval := 1, runner := 0 }]
  ∧ doubleStarted.1.is_running = true :=
  ⟨rfl, rfl, rfl⟩

/-- Claim C5 as amended (proved): calling `start()` on an already-running
cycle raises no error and leaves the cycle running, but it registers one
additional periodic job each time instead of performing no duplicate
registration. -/
theorem c5_restart_no_error_but_duplicates (c : BaseCycle) (s : SchedState)
    (rid : Nat) (h : c.is_running = true) :
    ((c.start s rid).1.is_running = true)
  ∧ ((c.start s rid).2.jobs.length = s.jobs.length + 1) := by
  refine ⟨rfl, ?_⟩
  simp [BaseCycle.start, SchedState.enqueueJob]

/-- Witness for the amended C5 at a concrete running cycle. -/
theorem c5_restart_no_error_but_duplicates_witness :
    (({ name := "Test Cycle", interval := 1, is_running := true } : BaseCycle).is_running
      = true)
  ∧ ((BaseCycle.start { name := "Test Cycle", interval := 1, is_running := true } sched0 0).1.is_running = true)
  ∧ ((BaseCycle.start { name := "Test Cycle", interval := 1, is_running := true } sched0 0).2.jobs.length = sched0.jobs.length + 1) :=
  ⟨rfl, c5_restart_no_error_but_duplicates
    { name := "Test Cycle", interval := 1, is_running := true } sched0 0 rfl⟩

/-! ## Claim C6 -/

/-- Claim C6 (confirmed): dispatch by kind in `Agent4._handle_message` is
total — `error`, `metric` and `alert` reach their handlers, any other kind
is dropped (logged, no exception is raised anywhere in the chain), and the
consumer processes each message independently, so an unknown kind does not
affect the dispatch of the surrounding messages. -/
theorem c6_dispatch_total (m : Message) (ms1 ms2 : List Message) :
    (m.type = some "error" → handle_message m = Dispatch.errorHandler)
  ∧ (m.type = some "metric" → handle_message m = Dispatch.metricHandler)
  ∧ (m.type = some "alert" → handle_message m = Dispatch.alertHandler)
  ∧ (m.type ≠ some "error" → m.type ≠ some "metric" → m.type ≠ some "alert" →
      handle_message m = Dispatch.dropped)
  ∧ consumeAll (ms1 ++ m :: ms2) = consumeAll ms1 ++ handle_message m :: consumeAll ms2 := by
  refine ⟨?_, ?_, ?_, ?_, ?_⟩
  · intro h1; simp [handle_message, h1]
  · intro h1; simp [handle_message, h1]
  · intro h1; simp [handle_message, h1]
  · intro h1 h2 h3; simp [handle_message, h1, h2, h3]
  · simp [consumeAll]

/-- Witness for C6: an `error` message reaches the error handler, an
unrecognized kind is dropped. -/
theorem c6_dispatch_total_witness :
    handle_message ({ type := some "error" } : Message) = Dispatch.errorHandler
  ∧ handle_message ({ type := some "bogus" } : Message) = Dispatch.dropped :=
  ⟨(c6_dispatch_total ({ type := some "error" } : Message) [] []).1 rfl,
   (c6_dispatch_total ({ type := some "bogus" } : Message) [] []).2.2.2.1
     (by decide) (by decide) (by decide)⟩

/-! ## Ledger lemmas for the recovery controller -/

theorem ledgerGet_ledgerSet_self (l : List (String × Nat)) (k : String) (v : Nat) :
    ledgerGet (ledgerSet l k v) k = v := by
  induction l with
  | nil => simp [ledgerGet, ledgerSet]
  | cons p rest ih =>
    simp only [ledgerSet]
    by_cases hp : p.1 = k
    · simp [hp, ledgerGet]
    · simp [hp, ledgerGet, ih]

theorem ledgerGet_ledgerSet_ne (l : List (String × Nat)) (k : String) (v : Nat)
    (k' : String) (h : k' ≠ k) :
    ledgerGet (ledgerSet l k v) k' = ledgerGet l k' := by
  induction l with
  | nil => simp [ledgerGet, ledgerSet, Ne.symm h]
  | cons p rest ih =>
    simp only [ledgerSet]
    by_cases hp : p.1 = k
    · simp [ledgerGet, hp, Ne.symm h]
    · simp [ledgerGet, hp, ih]

theorem attempt_recovery_max (h : HealthCheckCycle) (n : String) (strat : StratResult) :
    (attempt_recovery h n strat).max_recovery_attempts = h.max_recovery_attempts := by
  cases strat with
  | ok b => cases b <;> rfl
  | exn m => rfl

theorem attempt_recovery_get_other (h : HealthCheckCycle) (n : String)
    (strat : StratResult) (k : String) (hk : k ≠ n) :
    ledgerGet (attempt_recovery h n strat).recovery_attempts k
      = ledgerGet h.recovery_attempts k := by
  cases strat with
  | ok b =>
    cases b <;>
      simp [attempt_recovery, ledgerGet_ledgerSet_ne _ _ _ _ hk]
  | exn m =>
    simp [attempt_recovery, ledgerGet_ledgerSet_ne _ _ _ _ hk]

theorem attempt_recovery_get_fail (h : HealthCheckCycle) (n : String) :
    ledgerGet (attempt_recovery h n (StratResult.ok false)).recovery_attempts n
      = ledgerGet h.recovery_attempts n + 1 := by
  simp [attempt_recovery, ledgerGet_ledgerSet_self]

theorem attempt_recovery_get_exn (h : HealthCheckCycle) (n : String) (e : String) :
    ledgerGet (attempt_recovery h n (StratResult.exn e)).recovery_attempts n
      = ledgerGet h.recovery_attempts n + 1 := by
  simp [attempt_recovery, ledgerGet_ledgerSet_self]

theorem attempt_recovery_get_success (h : HealthCheckCycle) (n : String) :
    ledgerGet (attempt_recovery h n (StratResult.ok true)).recovery_attempts n = 0 := by
  simp [attempt_recovery, ledgerGet_ledgerSet_self]

/-- When the attempt was eligible, the new count stays within the cap,
whatever the strategy outcome. -/
theorem attempt_recovery_get_self_le (h : HealthCheckCycle) (n : String)
    (strat : StratResult)
    (hlt : ledgerGet h.recovery_attempts n < h.max_recovery_attempts) :
    ledgerGet (attempt_recovery h n strat).recovery_attempts n
      ≤ h.max_recovery_attempts := by
  cases strat with
  | ok b =>
    cases b
    · rw [attempt_recovery_get_fail]; omega
    · rw [attempt_recovery_get_success]; omega
  | exn m => rw [attempt_recovery_get_exn]; omega

/-- A sweep never changes the configured cap. -/
theorem handle_failures_max (env : RecoveryEnv) (h : HealthCheckCycle)
    (l : List (String × HealthRecord)) :
    (handle_failures env h l).1.max_recovery_attempts = h.max_recovery_attempts := by
  induction l generalizing h with
  | nil => rfl
  | cons p rest ih =>
    obtain ⟨sysn, st⟩ := p
    simp only [handle_failures]
    split_ifs with h1 h2
    · exact ih h
    · rw [ih, attempt_recovery_max]
    · exact ih h

/-- A ledger entry at or above the cap is never touched by a sweep: the
subsystem is ineligible, so only escalation (which reads the ledger but
does not write it) can happen for it, and attempts for other subsystems
write other entries. -/
theorem handle_failures_capped_get (env : RecoveryEnv) (h : HealthCheckCycle)
    (l : List (String × HealthRecord)) (n : String)
    (hc : h.max_recovery_attempts ≤ ledgerGet h.recovery_attempts n) :
    ledgerGet (handle_failures env h l).1.recovery_attempts n
      = ledgerGet h.recovery_attempts n := by
  induction l generalizing h with
  | nil => rfl
  | cons p rest ih =>
    obtain ⟨sysn, st⟩ := p
    simp only [handle_failures]
    split_ifs with h1 h2
    · exact ih h hc
    · have hne : sysn ≠ n := by
        intro he
        subst he
        simp only [should_attempt_recovery, decide_eq_true_eq] at h2
        omega
      rw [ih, attempt_recovery_get_other _ _ _ _ (Ne.symm hne)]
      rw [attempt_recovery_max, attempt_recovery_get_other _ _ _ _ (Ne.symm hne)]
      exact hc
    · exact ih h hc

/-- If every ledger entry is within the cap, it stays within the cap after
any sweep: an attempt only happens when the entry is strictly below the
cap, the increment lands at most on the cap, and a success resets to 0. -/
theorem handle_failures_bound (env : RecoveryEnv) (h : HealthCheckCycle)
    (l : List (String × HealthRecord))
    (hb : ∀ k, ledgerGet h.recovery_attempts k ≤ h.max_recovery_attempts) :
    ∀ k, ledgerGet (handle_failures env h l).1.recovery_attempts k
      ≤ h.max_recovery_attempts := by
  induction l generalizing h with
  | nil => exact hb
  | cons p rest ih =>
    obtain ⟨sysn, st⟩ := p
    intro k
    simp only [handle_failures]
    split_ifs with h1 h2
    · exact ih h hb k
    · have hlt : ledgerGet h.recovery_attempts sysn < h.max_recovery_attempts := by
        simpa only [should_attempt_recovery, decide_eq_true_eq] using h2
      have hb1 : ∀ k', ledgerGet
          (attempt_recovery h sysn (recoveryStrategy env sysn)).recovery_attempts k'
          ≤ (attempt_recovery h sysn (recoveryStrategy env sysn)).max_recovery_attempts := by
        intro k'
        rw [attempt_recovery_max]
        by_cases hk : k' = sysn
        · subst hk
          exact attempt_recovery_get_self_le h k' _ hlt
        · rw [attempt_recovery_get_other _ _ _ _ hk]
          exact hb k'
      have := ih _ hb1 k
      rwa [attempt_recovery_max] at this
    · exact ih h hb k

/-- In a sweep, an unhealthy subsystem whose ledger entry is at the cap is
escalated: an escalation notice bearing its name appears in the output. -/
theorem handle_failures_escalates (env : RecoveryEnv) (h : HealthCheckCycle)
    (l : List (String × HealthRecord)) (n : String) (rec : HealthRecord)
    (hc : h.max_recovery_attempts ≤ ledgerGet h.recovery_attempts n)
    (hmem : (n, rec) ∈ l) (hunh : rec.healthy = false) :
    ∃ esc ∈ (handle_failures env h l).2, esc.system = n := by
  induction l generalizing h with
  | nil => cases hmem
  | cons p rest ih =>
    obtain ⟨sysn, st⟩ := p
    rcases List.mem_cons.mp hmem with heq | hmem'
    · have hn : sysn = n := by
        have := congrArg Prod.fst heq
        exact this.symm
      have hst : st = rec := by
        have := congrArg Prod.snd heq
        exact this.symm
      subst hn
      subst hst
      simp only [handle_failures]
      split_ifs with h1 h2
      · rw [hunh] at h1
        cases h1
      · simp only [should_attempt_recovery, decide_eq_true_eq] at h2
        omega
      · exact ⟨_, List.mem_cons_self _ _, rfl⟩
    · simp only [handle_failures]
      split_ifs with h1 h2
      · exact ih h hc hmem'
      · have hne : sysn ≠ n := by
          intro he
          subst he
          simp only [should_attempt_recovery, decide_eq_true_eq] at h2
          omega
        apply ih
        · rw [attempt_recovery_max, attempt_recovery_get_other _ _ _ _ (Ne.symm hne)]
          exact hc
        · exact hmem'
      · obtain ⟨esc, hm2, hsys⟩ := ih h hc hmem'
        exact ⟨esc, List.mem_cons_of_mem _ hm2, hsys⟩

/-- A ledger entry at or above the cap survives any sequence of sweeps
unchanged, and the cap itself is constant. -/
theorem runSweeps_capped (h : HealthCheckCycle) (n : String) (sws : List Sweep)
    (hc : h.max_recovery_attempts ≤ ledgerGet h.recovery_attempts n) :
    ledgerGet (runSweeps h sws).recovery_attempts n = ledgerGet h.recovery_attempts n
  ∧ (runSweeps h sws).max_recovery_attempts = h.max_recovery_attempts := by
  induction sws generalizing h with
  | nil => exact ⟨rfl, rfl⟩
  | cons sw rest ih =>
    simp only [runSweeps]
    have hg := handle_failures_capped_get sw.env h sw.status n hc
    have hm := handle_failures_max sw.env h sw.status
    have hc1 : (handle_failures sw.env h sw.status).1.max_recovery_attempts
        ≤ ledgerGet (handle_failures sw.env h sw.status).1.recovery_attempts n := by
      rw [hg, hm]
      exact hc
    obtain ⟨a1, a2⟩ := ih _ hc1
    exact ⟨by rw [a1, hg], by rw [a2, hm]⟩

/-- Replaying concatenated sweep sequences composes. -/
theorem runSweeps_append (h : HealthCheckCycle) (l1 l2 : List Sweep) :
    runSweeps h (l1 ++ l2) = runSweeps (runSweeps h l1) l2 := by
  induction l1 generalizing h with
  | nil => rfl
  | cons sw rest ih => simp [runSweeps, ih]

/-! ## Claims C7 and C10 -/

/-- Claim C7 (confirmed): the recovery ledger invariant.  Eligibility for
automatic recovery holds iff the entry (missing entries count 0) is
strictly below `max_recovery_attempts`; an attempt increments the entry
first, a failed or raising strategy leaves the incremented count, a
successful strategy resets the entry to 0; and under a whole
`_handle_failures` sweep no entry ever exceeds the cap. -/
theorem c7_recovery_ledger (h : HealthCheckCycle) (n : String) (env : RecoveryEnv)
    (status : List (String × HealthRecord)) (e : String)
    (hb : ∀ k, ledgerGet h.recovery_attempts k ≤ h.max_recovery_attempts) :
    (should_attempt_recovery h n = true ↔
      ledgerGet h.recovery_attempts n < h.max_recovery_attempts)
  ∧ (ledgerGet (attempt_recovery h n (StratResult.ok false)).recovery_attempts n
      = ledgerGet h.recovery_attempts n + 1)
  ∧ (ledgerGet (attempt_recovery h n (StratResult.exn e)).recovery_attempts n
      = ledgerGet h.recovery_attempts n + 1)
  ∧ (ledgerGet (attempt_recovery h n (StratResult.ok true)).recovery_attempts n = 0)
  ∧ (∀ k, ledgerGet (handle_failures env h status).1.recovery_attempts k
      ≤ h.max_recovery_attempts) := by
  refine ⟨?_, attempt_recovery_get_fail h n, attempt_recovery_get_exn h n e,
    attempt_recovery_get_success h n, handle_failures_bound env h status hb⟩
  simp [should_attempt_recovery]

/-- Witness for C7 at a fresh recovery state and a one-subsystem sweep. -/
theorem c7_recovery_ledger_witness :
    (should_attempt_recovery freshHC "x" = true ↔
      ledgerGet freshHC.recovery_attempts "x" < freshHC.max_recovery_attempts)
  ∧ (ledgerGet (attempt_recovery freshHC "x" (StratResult.ok false)).recovery_attempts "x"
      = ledgerGet freshHC.recovery_attempts "x" + 1)
  ∧ (ledgerGet (attempt_recovery freshHC "x" (StratResult.exn "boom")).recovery_attempts "x"
      = ledgerGet freshHC.recovery_attempts "x" + 1)
  ∧ (ledgerGet (attempt_recovery freshHC "x" (StratResult.ok true)).recovery_attempts "x" = 0)
  ∧ (∀ k, ledgerGet (handle_failures constEnv freshHC [("x", downRecord)]).1.recovery_attempts k
      ≤ freshHC.max_recovery_attempts) :=
  c7_recovery_ledger freshHC "x" constEnv [("x", downRecord)] "boom"
    (fun _ => Nat.zero_le _)

/-- Claim C10 (confirmed): a ledger entry is reset only by a successful
recovery attempt, and an entry at the cap can never see an attempt again,
so it stays at the cap through every later sweep — healthy sweeps do not
touch it, attempts for other subsystems write other entries, and escalation
only reads — the subsystem stays ineligible and is escalated on every later
sweep in which it is unhealthy. -/
theorem c10_cap_is_permanent (h : HealthCheckCycle) (n : String) (rec : HealthRecord)
    (pre post : List Sweep) (env : RecoveryEnv)
    (status : List (String × HealthRecord))
    (hcap : h.max_recovery_attempts ≤ ledgerGet h.recovery_attempts n)
    (hmem : (n, rec) ∈ status) (hunh : rec.healthy = false) :
    (ledgerGet (runSweeps h pre).recovery_attempts n = ledgerGet h.recovery_attempts n)
  ∧ (should_attempt_recovery (runSweeps h pre) n = false)
  ∧ (∃ esc ∈ (handle_failures env (runSweeps h pre) status).2, esc.system = n)
  ∧ (ledgerGet (runSweeps h (pre ++ { env := env, status := status } :: post)).recovery_attempts n
      = ledgerGet h.recovery_attempts n) := by
  obtain ⟨hg, hm⟩ := runSweeps_capped h n pre hcap
  have hcap1 : (runSweeps h pre).max_recovery_attempts
      ≤ ledgerGet (runSweeps h pre).recovery_attempts n := by
    rw [hg, hm]
    exact hcap
  refine ⟨hg, ?_, handle_failures_escalates env (runSweeps h pre) status n rec hcap1 hmem hunh, ?_⟩
  · simp only [should_attempt_recovery, decide_eq_false_iff_not, not_lt]
    exact hcap1
  · rw [runSweeps_append]
    simp only [runSweeps]
    have hg2 := handle_failures_capped_get env (runSweeps h pre) status n hcap1
    have hm2 := handle_failures_max env (runSweeps h pre) status
    have hcap2 : (handle_failures env (runSweeps h pre) status).1.max_recovery_attempts
        ≤ ledgerGet (handle_failures env (runSweeps h pre) status).1.recovery_attempts n := by
      rw [hg2, hm2]
      exact hcap1
    obtain ⟨hg3, _⟩ := runSweeps_capped _ n post hcap2
    rw [hg3, hg2, hg]

/-- Witness for C10: subsystem `x` at the cap, unhealthy in the next sweep,
with no earlier or later extra sweeps. -/
theorem c10_cap_is_permanent_witness :
    (ledgerGet (runSweeps cappedHC []).recovery_attempts "x"
      = ledgerGet cappedHC.recovery_attempts "x")
  ∧ (should_attempt_recovery (runSweeps cappedHC []) "x" = false)
  ∧ (∃ esc ∈ (handle_failures constEnv (runSweeps cappedHC [])
      [("x", downRecord)]).2, esc.system = "x")
  ∧ (ledgerGet (runSweeps cappedHC
      ([] ++ { env := constEnv, status := [("x", downRecord)] } :: [])).recovery_attempts "x"
      = ledgerGet cappedHC.recovery_attempts "x") :=
  c10_cap_is_permanent cappedHC "x" downRecord [] [] constEnv [("x", downRecord)]
    (by decide) (by decide) rfl

/-! ## Stop lemmas for the orchestrator -/

/-- The per-cycle stop loop applies `BaseCycle.stop` to every registered
cycle: the resulting list is the input list with every running flag
cleared. -/
theorem stopCycles_fst (cs : List BaseCycle) (s : SchedState) (rid : Nat) :
    (stopCycles cs s rid).1 = cs.map (fun c => { c with is_running := false }) := by
  induction cs generalizing s rid with
  | nil => rfl
  | cons c rest ih => simp [stopCycles, BaseCycle.stop, ih]

/-- The drain loop empties the queue. -/
theorem drainQueue_eq_nil (q : List Message) : drainQueue q = [] := by
  induction q with
  | nil => rfl
  | cons m rest ih => simpa [drainQueue] using ih

/-- What `Agent4.stop` leaves behind: running flag cleared, every cycle
stopped (the flag of each cleared), queue empty. -/
theorem Agent4.stop_spec (a : Agent4) (s : SchedState) :
    ((a.stop s).1.is_running = false)
  ∧ ((a.stop s).1.cycles = a.cycles.map (fun c => { c with is_running := false }))
  ∧ ((a.stop s).1.message_queue = []) := by
  refine ⟨rfl, ?_, ?_⟩
  · simp [Agent4.stop, stopCycles_fst]
  · simp [Agent4.stop, drainQueue_eq_nil]

/-! ## Claims C8 and C9 -/

/-- Claim C8 (confirmed): an exception raised inside the `try` block of
`Agent4.start` (while spawning a cycle worker or the consumer) makes
`start()` return that exception to the caller as a hard failure, after a
full `stop()`: the agent-wide flag is false, every cycle is stopped and the
queue is empty.  The last conjunct records that this is the only error
condition surfacing to a caller from the modelled operations: a failure of
`execute()` inside a trigger never propagates (`_run` catches it). -/
theorem c8_startup_failure_aborts (a : Agent4) (s : SchedState) (now : Nat)
    (spawn : Nat → Option String) (consumerSpawn : Option String) (e : String)
    (hfail : startupFailure spawn consumerSpawn a.cycles.length = some e) :
    ((a.start s now spawn consumerSpawn).2 = Except.error e)
  ∧ ((a.start s now spawn consumerSpawn).1.1.is_running = false)
  ∧ (∀ c ∈ (a.start s now spawn consumerSpawn).1.1.cycles, c.is_running = false)
  ∧ ((a.start s now spawn consumerSpawn).1.1.message_queue = [])
  ∧ (∀ (c : BaseCycle) (s1 : SchedState) (rid : Nat) (res : ExecResult) (t : Nat),
      (c.run s1 rid res t).raised = none) := by
  have hred : a.start s now spawn consumerSpawn
      = (Agent4.stop { a with is_running := true, start_time := some now } s,
         Except.error e) := by
    simp [Agent4.start, hfail]
  obtain ⟨hs1, hs2, hs3⟩ :=
    Agent4.stop_spec { a with is_running := true, start_time := some now } s
  rw [hred]
  refine ⟨rfl, hs1, ?_, hs3,
    fun c s1 rid res t => BaseCycle.run_raised_none c s1 rid res t⟩
  intro c hc
  rw [hs2] at hc
  obtain ⟨c0, _, rfl⟩ := List.mem_map.mp hc
  rfl

/-- Witness for C8: one cycle, worker spawning raises. -/
theorem c8_startup_failure_aborts_witness :
    ((agentOne.start sched0 0 (fun _ => some "no thread") none).2
      = Except.error "no thread")
  ∧ ((agentOne.start sched0 0 (fun _ => some "no thread") none).1.1.is_running = false) :=
  ⟨(c8_startup_failure_aborts agentOne sched0 0 (fun _ => some "no thread") none
      "no thread" rfl).1,
   (c8_startup_failure_aborts agentOne sched0 0 (fun _ => some "no thread") none
      "no thread" rfl).2.1⟩

/-- Claim C9 (confirmed): after `Agent4.stop` returns, the agent-wide
running flag is false, `stop()` was applied to every registered cycle (the
loop tolerates a per-cycle failure; `BaseCycle.stop` itself always returns,
clearing the flag of the cycle), so every cycle has `is_running = false`,
and the drained mailbox is empty. -/
theorem c9_stop_clears_everything (a : Agent4) (s : SchedState) :
    ((a.stop s).1.is_running = false)
  ∧ ((a.stop s).1.cycles = a.cycles.map (fun c => { c with is_running := false }))
  ∧ (∀ c ∈ (a.stop s).1.cycles, c.is_running = false)
  ∧ ((a.stop s).1.message_queue = []) := by
  obtain ⟨hs1, hs2, hs3⟩ := Agent4.stop_spec a s
  refine ⟨hs1, hs2, ?_, hs3⟩
  intro c hc
  rw [hs2] at hc
  obtain ⟨c0, _, rfl⟩ := List.mem_map.mp hc
  rfl
